import Mathlib

/-!
Verification of the TransitPulse backend against its specification.

The definitions below are shallow embeddings of the Python source:
  * `upsertVehicle`, `create_or_update_vehicle_position` embed
    `app/crud/vehicle_crud.py` (PostgreSQL `ON CONFLICT (vehicle_id) DO UPDATE`
    upsert on the `LiveVehiclePosition` table, modelled as a list of rows).
  * `convert_gtfs_time_to_datetime`, `compute_scheduled_datetime` embed
    `app/api/endpoints/trips.py` (naive datetimes modelled as integer second
    counts; a date is the floor-division of such a count by 86400).
  * `prediction_status` embeds the status assignment of
    `get_predictions_with_stop_info` in `app/crud/predictions_crud.py`.
  * `broadcastSends`, `broadcast`, `broadcastTrace` embed
    `ConnectionManager.broadcast` in `app/websocket/manager.py`.
  * the prediction-store functions embed `app/crud/predictions_crud.py` and
    `data_ingestion/gtfs_trip_updates_processor.py`.
  * the feed-cycle handlers embed the `try/except` structure of
    `data_ingestion/gtfs_rt_processor.py` and
    `data_ingestion/gtfs_trip_updates_processor.py`.

Machine floats that are only stored and copied (latitude, longitude, speed,
bearing) are represented by `Int` payloads: no arithmetic is ever performed on
them by the embedded code paths.
-/

/-- A row of the `live_vehicle_positions` table, as written by
`create_or_update_vehicle_position` in `app/crud/vehicle_crud.py`. -/
structure VehicleRow where
  vehicle_id : String
  route_id : String
  latitude : Int
  longitude : Int
  speed : Option Int
  bearing : Option Int
  trip_id : Option String
  timestamp : Int
deriving Repr, DecidableEq

/-- The table's key column: the list of `vehicle_id`s of the rows. -/
def vkeys (t : List VehicleRow) : List String := t.map (·.vehicle_id)

/-- The `INSERT ... ON CONFLICT (vehicle_id) DO UPDATE` statement of
`create_or_update_vehicle_position`: if a row with the key exists, every
non-key field is overwritten from the excluded row (so the row is fully
replaced, the key being equal anyway); otherwise the row is inserted. -/
def upsertVehicle (t : List VehicleRow) (r : VehicleRow) : List VehicleRow :=
  if r.vehicle_id ∈ vkeys t then
    t.map (fun q => if q.vehicle_id = r.vehicle_id then r else q)
  else t ++ [r]

/-- The `SELECT ... WHERE vehicle_id = :id` lookup
(`get_live_vehicle_position_by_id`, `scalars().first()`). -/
def get_live_vehicle_position_by_id (t : List VehicleRow) (vehicle_id : String) :
    Option VehicleRow :=
  (t.filter (fun q => q.vehicle_id == vehicle_id)).head?

/-- `create_or_update_vehicle_position`: defaults the timestamp to `now`
(`datetime.utcnow()`), upserts the row, and returns the new table together
with the row read back by key. -/
def create_or_update_vehicle_position (t : List VehicleRow)
    (vehicle_id route_id : String) (latitude longitude : Int)
    (speed bearing : Option Int) (trip_id : Option String)
    (timestamp : Option Int) (now : Int) :
    List VehicleRow × Option VehicleRow :=
  let ts := timestamp.getD now
  let r : VehicleRow :=
    ⟨vehicle_id, route_id, latitude, longitude, speed, bearing, trip_id, ts⟩
  let t' := upsertVehicle t r
  (t', get_live_vehicle_position_by_id t' vehicle_id)

lemma vkeys_replace (t : List VehicleRow) (r : VehicleRow) :
    vkeys (t.map (fun q => if q.vehicle_id = r.vehicle_id then r else q)) =
      vkeys t := by
  simp only [vkeys, List.map_map]
  apply List.map_congr_left
  intro q _
  by_cases hq : q.vehicle_id = r.vehicle_id
  · simp [hq]
  · simp [hq]

lemma mem_vkeys_upsert (t : List VehicleRow) (r : VehicleRow) (id : String) :
    id ∈ vkeys (upsertVehicle t r) ↔ id ∈ vkeys t ∨ id = r.vehicle_id := by
  unfold upsertVehicle
  split
  · rename_i hc
    rw [vkeys_replace]
    constructor
    · exact Or.inl
    · rintro (h | h)
      · exact h
      · exact h ▸ hc
  · simp [vkeys]

lemma nodup_vkeys_upsert (t : List VehicleRow) (r : VehicleRow)
    (h : (vkeys t).Nodup) : (vkeys (upsertVehicle t r)).Nodup := by
  unfold upsertVehicle
  split
  · rw [vkeys_replace]; exact h
  · rename_i hc
    simp only [vkeys, List.map_append, List.map_cons, List.map_nil]
    refine List.Nodup.append h (List.nodup_singleton _) ?_
    intro x hx hy
    rw [List.mem_singleton] at hy
    exact hc (by simpa [vkeys, hy] using hx)

lemma replace_map_id (t : List VehicleRow) (r : VehicleRow)
    (h : r.vehicle_id ∉ vkeys t) :
    t.map (fun q => if q.vehicle_id = r.vehicle_id then r else q) = t := by
  induction t with
  | nil => rfl
  | cons a rest ih =>
    simp only [vkeys, List.map_cons, List.mem_cons, not_or] at h
    simp only [List.map_cons]
    rw [if_neg (fun he => h.1 he.symm), ih (by simpa [vkeys] using h.2)]

lemma filter_byid_nil (t : List VehicleRow) (id : String)
    (h : id ∉ vkeys t) : t.filter (fun q => q.vehicle_id == id) = [] := by
  induction t with
  | nil => rfl
  | cons a rest ih =>
    simp only [vkeys, List.map_cons, List.mem_cons, not_or] at h
    simp only [List.filter_cons]
    rw [if_neg (by simpa using fun he : a.vehicle_id = id => h.1 he.symm),
      ih (by simpa [vkeys] using h.2)]

lemma filter_byid_replace (t : List VehicleRow) (r : VehicleRow)
    (h : (vkeys t).Nodup) (hm : r.vehicle_id ∈ vkeys t) :
    (t.map (fun q => if q.vehicle_id = r.vehicle_id then r else q)).filter
      (fun q => q.vehicle_id == r.vehicle_id) = [r] := by
  induction t with
  | nil => simp [vkeys] at hm
  | cons a rest ih =>
    simp only [vkeys, List.map_cons, List.nodup_cons] at h
    simp only [vkeys, List.map_cons, List.mem_cons] at hm
    by_cases haa : a.vehicle_id = r.vehicle_id
    · simp only [List.map_cons, if_pos haa, List.filter_cons, beq_self_eq_true,
        if_pos]
      have hrest : r.vehicle_id ∉ vkeys rest := haa ▸ h.1
      rw [replace_map_id rest r hrest, filter_byid_nil rest r.vehicle_id hrest]
    · simp only [List.map_cons, if_neg haa, List.filter_cons]
      rw [if_neg (by simpa using haa)]
      exact ih h.2 (hm.resolve_left fun he => haa he.symm)

lemma filter_byid_upsert (t : List VehicleRow) (r : VehicleRow)
    (h : (vkeys t).Nodup) :
    (upsertVehicle t r).filter (fun q => q.vehicle_id == r.vehicle_id) = [r] := by
  unfold upsertVehicle
  split
  · rename_i hc
    exact filter_byid_replace t r h hc
  · rename_i hc
    rw [List.filter_append, filter_byid_nil t r.vehicle_id hc]
    simp

lemma nodup_vkeys_foldl (init : List VehicleRow) (writes : List VehicleRow)
    (h : (vkeys init).Nodup) :
    (vkeys (writes.foldl upsertVehicle init)).Nodup := by
  induction writes generalizing init with
  | nil => exact h
  | cons w rest ih => exact ih _ (nodup_vkeys_upsert _ _ h)

lemma mem_vkeys_foldl_mono (init : List VehicleRow) (writes : List VehicleRow)
    (id : String) (h : id ∈ vkeys init) :
    id ∈ vkeys (writes.foldl upsertVehicle init) := by
  induction writes generalizing init with
  | nil => exact h
  | cons w rest ih => exact ih _ ((mem_vkeys_upsert _ _ _).mpr (Or.inl h))

lemma mem_vkeys_foldl_of_write (init : List VehicleRow)
    (writes : List VehicleRow) (w : VehicleRow) (hw : w ∈ writes) :
    w.vehicle_id ∈ vkeys (writes.foldl upsertVehicle init) := by
  induction writes generalizing init with
  | nil => cases hw
  | cons a rest ih =>
    rcases List.mem_cons.mp hw with h | h
    · subst h
      exact mem_vkeys_foldl_mono (upsertVehicle init w) rest _
        ((mem_vkeys_upsert _ _ _).mpr (Or.inr rfl))
    · exact ih (upsertVehicle init a) h

lemma filter_byid_len_one (t : List VehicleRow) (id : String)
    (hnd : (vkeys t).Nodup) (hmem : id ∈ vkeys t) :
    (t.filter (fun q => q.vehicle_id == id)).length = 1 := by
  induction t with
  | nil => simp [vkeys] at hmem
  | cons a rest ih =>
    simp only [vkeys, List.map_cons, List.nodup_cons] at hnd
    simp only [vkeys, List.map_cons, List.mem_cons] at hmem
    by_cases haa : a.vehicle_id = id
    · rw [List.filter_cons, if_pos (by simpa using haa),
        filter_byid_nil rest id (haa ▸ hnd.1)]
      rfl
    · rw [List.filter_cons, if_neg (by simpa using haa)]
      exact ih hnd.2 (hmem.resolve_left fun h => haa h.symm)

/-- C1: for every sequence of vehicle-position upserts starting from a table
with unique keys, the table keeps exactly one row per vehicle_id (unique keys
throughout, and exactly one row for every written vehicle), and upserting two
positions with the same vehicle_id leaves that single row equal to the second
write in every field. -/
theorem c1_vehicle_upsert_latest_wins (init writes t : List VehicleRow)
    (w r1 r2 : VehicleRow)
    (hinit : (vkeys init).Nodup) (ht : (vkeys t).Nodup)
    (hw : w ∈ writes) (hid : r1.vehicle_id = r2.vehicle_id) :
    (vkeys (writes.foldl upsertVehicle init)).Nodup ∧
    ((writes.foldl upsertVehicle init).filter
      (fun q => q.vehicle_id == w.vehicle_id)).length = 1 ∧
    (upsertVehicle (upsertVehicle t r1) r2).filter
      (fun q => q.vehicle_id == r2.vehicle_id) = [r2] := by
  refine ⟨nodup_vkeys_foldl _ _ hinit, ?_, ?_⟩
  · exact filter_byid_len_one _ _ (nodup_vkeys_foldl _ _ hinit)
      (mem_vkeys_foldl_of_write _ _ _ hw)
  · exact filter_byid_upsert _ _ (nodup_vkeys_upsert _ _ ht)

/-- Witness for C1 at concrete rows: two writes for vehicle "v1", the second
with different payload fields, leave one row equal to the second write. -/
theorem c1_vehicle_upsert_latest_wins_witness :
    (vkeys (List.foldl upsertVehicle []
      [⟨"v1", "rA", 1, 2, none, none, none, 10⟩,
       ⟨"v1", "rB", 3, 4, some 5, some 6, some "t", 20⟩])).Nodup ∧
    ((List.foldl upsertVehicle []
      [⟨"v1", "rA", 1, 2, none, none, none, 10⟩,
       ⟨"v1", "rB", 3, 4, some 5, some 6, some "t", 20⟩]).filter
      (fun q => q.vehicle_id ==
        (⟨"v1", "rB", 3, 4, some 5, some 6, some "t", 20⟩ :
          VehicleRow).vehicle_id)).length = 1 ∧
    (upsertVehicle (upsertVehicle []
        ⟨"v1", "rA", 1, 2, none, none, none, 10⟩)
        ⟨"v1", "rB", 3, 4, some 5, some 6, some "t", 20⟩).filter
      (fun q => q.vehicle_id ==
        (⟨"v1", "rB", 3, 4, some 5, some 6, some "t", 20⟩ :
          VehicleRow).vehicle_id) =
      [⟨"v1", "rB", 3, 4, some 5, some 6, some "t", 20⟩] :=
  c1_vehicle_upsert_latest_wins [] _ []
    ⟨"v1", "rB", 3, 4, some 5, some 6, some "t", 20⟩
    ⟨"v1", "rA", 1, 2, none, none, none, 10⟩
    ⟨"v1", "rB", 3, 4, some 5, some 6, some "t", 20⟩
    (by decide) (by decide) (by decide) (by decide)

/-- DST start instant for the modelled year 2025 in `America/Los_Angeles`:
2025-03-09 02:00 PST = 10:00 UTC, as Unix epoch seconds. -/
def dstStart2025 : Int := 1741514400

/-- DST end instant for the modelled year 2025 in `America/Los_Angeles`:
2025-11-02 02:00 PDT = 09:00 UTC, as Unix epoch seconds. -/
def dstEnd2025 : Int := 1762074000

/-- UTC offset (in seconds) of `America/Los_Angeles` at a given epoch instant:
−7 h during DST, −8 h otherwise.  The model is scoped to the 2025 DST cycle
used by the concrete instances below. -/
def laOffset (epoch : Int) : Int :=
  if dstStart2025 ≤ epoch ∧ epoch < dstEnd2025 then -25200 else -28800

/-- `pytz.utc.localize(utcfromtimestamp(epoch)).astimezone(pacific).replace(tzinfo=None)`:
the naive Pacific wall-clock value of an epoch instant, as seconds. -/
def laUtcToLocal (epoch : Int) : Int := epoch + laOffset epoch

/-- Interpretation of a naive Pacific wall-clock value as Unix epoch seconds,
following `pytz` `localize` with its default `is_dst=False`: an unambiguous
local time takes its unique offset; a local time in the repeated fall-back
hour takes the standard (PST) offset.  This is the back-conversion named by
the round-trip property of the specification, not code of the repository. -/
def laLocalToEpoch (localWall : Int) : Int :=
  if laOffset (localWall + 25200) = -25200 ∧ laOffset (localWall + 28800) = -28800 then
    localWall + 28800
  else if laOffset (localWall + 25200) = -25200 then localWall + 25200
  else localWall + 28800

/-- `datetime.combine(base_date, time(hour, minute, second))` where `time`
raises `ValueError` outside its component ranges (modelled as `none`).  A
datetime is `base_date * 86400 + seconds-of-day`. -/
def mkTime (base_date hour minute second : Int) : Option Int :=
  if 0 ≤ hour ∧ hour < 24 ∧ 0 ≤ minute ∧ minute < 60 ∧ 0 ≤ second ∧ second < 60 then
    some (base_date * 86400 + hour * 3600 + minute * 60 + second)
  else none

/-- `convert_gtfs_time_to_datetime` from `app/api/endpoints/trips.py`: values
above 86400 are Unix epoch seconds converted to Pacific wall-clock; other
values are seconds since midnight of the service day, combined with the
reference date, rolling to the next date when the derived hour reaches 24.
An exception in the service-day branch is caught and yields `None`. -/
def convert_gtfs_time_to_datetime (gtfs_time reference_datetime : Int) : Option Int :=
  if gtfs_time > 86400 then
    some (laUtcToLocal gtfs_time)
  else if gtfs_time / 3600 ≥ 24 then
    mkTime (reference_datetime / 86400 + 1) (gtfs_time / 3600 - 24)
      (gtfs_time % 3600 / 60) (gtfs_time % 60)
  else
    mkTime (reference_datetime / 86400) (gtfs_time / 3600)
      (gtfs_time % 3600 / 60) (gtfs_time % 60)

/-- `compute_scheduled_datetime` from `app/api/endpoints/trips.py`: a falsy
(`None`) scheduled time returns the reference unchanged; otherwise the
GTFS time (possibly ≥ 24:00:00) is combined with the reference date, rolling
one day on hour overflow, and the result is advanced one further day when it
lies more than 6 hours before the reference. -/
def compute_scheduled_datetime : Option (Int × Int × Int) → Int → Option Int
  | none, reference => some reference
  | some (hour, minute, second), reference =>
    (if hour ≥ 24 then
      mkTime (reference / 86400 + 1) (hour - 24) minute second
    else
      mkTime (reference / 86400) hour minute second).map
      (fun sched => if sched < reference - 21600 then sched + 86400 else sched)

/-- C2: for 0 ≤ v < 86400 the normalizer returns (without raising) the
datetime combining the reference date with time-of-day v/3600 hours,
(v%3600)/60 minutes, v%60 seconds; its date part is the reference's date. -/
theorem c2_convert_service_day (v ref : Int) (h0 : 0 ≤ v) (h1 : v < 86400) :
    convert_gtfs_time_to_datetime v ref =
      some (ref / 86400 * 86400 + v / 3600 * 3600 + v % 3600 / 60 * 60 + v % 60) ∧
    (ref / 86400 * 86400 + v / 3600 * 3600 + v % 3600 / 60 * 60 + v % 60) / 86400
      = ref / 86400 := by
  constructor
  · unfold convert_gtfs_time_to_datetime
    rw [if_neg (by omega : ¬ v > 86400), if_neg (by omega : ¬ v / 3600 ≥ 24)]
    unfold mkTime
    rw [if_pos (by omega)]
  · omega

/-- Witness for C2 at v = 3661 (01:01:01) against reference 0. -/
theorem c2_convert_service_day_witness :
    convert_gtfs_time_to_datetime 3661 0 =
      some ((0 : Int) / 86400 * 86400 + 3661 / 3600 * 3600 + 3661 % 3600 / 60 * 60
        + 3661 % 60) ∧
    ((0 : Int) / 86400 * 86400 + 3661 / 3600 * 3600 + 3661 % 3600 / 60 * 60
      + 3661 % 60) / 86400 = (0 : Int) / 86400 :=
  c2_convert_service_day 3661 0 (by decide) (by decide)

/-- Counterexample to C6 as stated: for the numeric value v = 0 (midnight)
with reference (current time) 23:00 of day 0, `convert_gtfs_time_to_datetime`
returns midnight of day 0, which is 23 hours in the past — it applies no
6-hour adjustment. -/
theorem c6_counterexample :
    convert_gtfs_time_to_datetime 0 82800 = some 0 ∧
    (82800 : Int) - 0 > 21600 := by
  constructor
  · decide
  · decide

/-- C6 amended: the 6-hour advance lives in `compute_scheduled_datetime`
(the scheduled-stop-time path), not in `convert_gtfs_time_to_datetime`;
`compute_scheduled_datetime` never returns a datetime more than 6 hours
before its reference. -/
theorem c6_amended_compute_scheduled (hour minute second ref t : Int)
    (hh0 : 0 ≤ hour) (hh1 : hour < 48)
    (hm0 : 0 ≤ minute) (hm1 : minute < 60)
    (hs0 : 0 ≤ second) (hs1 : second < 60)
    (hres : compute_scheduled_datetime (some (hour, minute, second)) ref = some t) :
    ref - t ≤ 21600 := by
  simp only [compute_scheduled_datetime, mkTime] at hres
  rcases le_or_lt 24 hour with h24 | h24
  · rw [if_pos h24, if_pos (by omega)] at hres
    simp only [Option.map_some'] at hres
    rw [Option.some_inj] at hres
    split_ifs at hres <;> omega
  · rw [if_neg (by omega), if_pos (by omega)] at hres
    simp only [Option.map_some'] at hres
    rw [Option.some_inj] at hres
    split_ifs at hres <;> omega

/-- Witness for the amended C6 at 25:00:00 with reference 0: the scheduled
datetime is 90000 (01:00 next day), not more than 6 hours before 0. -/
theorem c6_amended_compute_scheduled_witness :
    compute_scheduled_datetime (some (25, 0, 0)) 0 = some 90000 ∧
    (0 : Int) - 90000 ≤ 21600 :=
  ⟨by decide,
   c6_amended_compute_scheduled 25 0 0 0 90000 (by decide) (by decide)
     (by decide) (by decide) (by decide) (by decide) (by decide)⟩

/-- Counterexample to C7 as stated: the epoch 1762072200
(2025-11-02 08:30 UTC, 01:30 PDT) lies in the repeated fall-back hour; the
normalizer maps it to Pacific wall-clock 1762047000, whose standard-time
re-interpretation is 1762075800 = v + 3600 ≠ v. -/
theorem c7_counterexample :
    convert_gtfs_time_to_datetime 1762072200 0 = some 1762047000 ∧
    laLocalToEpoch 1762047000 = 1762075800 ∧
    (1762075800 : Int) ≠ 1762072200 := by
  refine ⟨by decide, by decide, by decide⟩

/-- C7 amended: for every v > 86400 outside the repeated DST fall-back hour
(epochs in [dstEnd2025 − 3600, dstEnd2025)), interpreting the result of
`convert_gtfs_time_to_datetime` as Pacific wall-clock and converting back to
epoch seconds under the same timezone yields exactly v. -/
theorem c7_amended_round_trip (v ref t : Int) (hv : v > 86400)
    (hna : v < dstEnd2025 - 3600 ∨ dstEnd2025 ≤ v)
    (hconv : convert_gtfs_time_to_datetime v ref = some t) :
    laLocalToEpoch t = v := by
  unfold convert_gtfs_time_to_datetime at hconv
  rw [if_pos hv, Option.some_inj] at hconv
  subst hconv
  unfold laLocalToEpoch laUtcToLocal laOffset dstStart2025 dstEnd2025 at *
  split_ifs at * <;> omega

/-- Witness for the amended C7 at the PST epoch 1765000000
(December 2025): the round trip returns the same epoch. -/
theorem c7_amended_round_trip_witness :
    (1765000000 : Int) > 86400 ∧
    ((1765000000 : Int) < dstEnd2025 - 3600 ∨ dstEnd2025 ≤ 1765000000) ∧
    convert_gtfs_time_to_datetime 1765000000 0 = some 1764971200 ∧
    laLocalToEpoch 1764971200 = 1765000000 :=
  ⟨by decide, by decide, by decide,
   c7_amended_round_trip 1765000000 0 1764971200 (by decide)
     (by decide) (by decide)⟩

/-- Python truthiness of `row.arrival_delay_seconds`: falsy when NULL and
when 0. -/
def delay_truthy : Option Int → Bool
  | some d => d != 0
  | none => false

/-- Status assignment of `get_predictions_with_stop_info` in
`app/crud/predictions_crud.py`: for a truthy delay, above +300 s is
"delayed", below −60 s is "early", otherwise "on_time"; a falsy delay yields
"predicted" for real-time rows and "scheduled" otherwise. -/
def prediction_status (arrival_delay_seconds : Option Int)
    (is_real_time : Bool) : String :=
  if delay_truthy arrival_delay_seconds then
    if arrival_delay_seconds.getD 0 > 300 then "delayed"
    else if arrival_delay_seconds.getD 0 < -60 then "early"
    else "on_time"
  else if is_real_time then "predicted" else "scheduled"

/-- Counterexample to C3 as stated: a known delay of −120 s is reported as
"early" by the code, while the claim (threshold −180 s) calls for "on_time". -/
theorem c3_counterexample :
    prediction_status (some (-120)) true = "early" ∧
    ¬ ((-120 : Int) < -180) := by
  exact ⟨rfl, by decide⟩

/-- C3 amended: for rows with a known nonzero delay d, the status is
"delayed" exactly when d > 300 s, "early" exactly when d < −60 s, and
"on_time" otherwise (a zero or missing delay is reported as
"scheduled"/"predicted" instead). -/
theorem c3_amended_status (d : Int) (rt : Bool) (hd : d ≠ 0) :
    (prediction_status (some d) rt = "delayed" ↔ d > 300) ∧
    (prediction_status (some d) rt = "early" ↔ d < -60) ∧
    (prediction_status (some d) rt = "on_time" ↔ (-60 ≤ d ∧ d ≤ 300)) := by
  unfold prediction_status delay_truthy
  rw [if_pos (by simpa using hd)]
  simp only [Option.getD_some]
  split_ifs with h1 h2
  · exact ⟨⟨fun _ => h1, fun _ => rfl⟩,
      ⟨fun hc => absurd hc (by decide), fun hc => absurd hc (by omega)⟩,
      ⟨fun hc => absurd hc (by decide), fun hc => absurd hc.2 (by omega)⟩⟩
  · exact ⟨⟨fun hc => absurd hc (by decide), fun hc => absurd hc h1⟩,
      ⟨fun _ => h2, fun _ => rfl⟩,
      ⟨fun hc => absurd hc (by decide), fun hc => absurd hc.1 (by omega)⟩⟩
  · exact ⟨⟨fun hc => absurd hc (by decide), fun hc => absurd hc h1⟩,
      ⟨fun hc => absurd hc (by decide), fun hc => absurd hc h2⟩,
      ⟨fun _ => ⟨by omega, by omega⟩, fun _ => rfl⟩⟩

/-- Witness for the amended C3 at d = 400 (a 400 s delay is "delayed"). -/
theorem c3_amended_status_witness :
    (prediction_status (some 400) true = "delayed" ↔ (400 : Int) > 300) ∧
    (prediction_status (some 400) true = "early" ↔ (400 : Int) < -60) ∧
    (prediction_status (some 400) true = "on_time" ↔
      ((-60 : Int) ≤ 400 ∧ (400 : Int) ≤ 300)) :=
  c3_amended_status 400 true (by decide)

/-- `connection.send_json(message)` inside the broadcast loop: sending to a
connection either succeeds or raises, according to which connections fail. -/
def send_json (fails : String → Bool) (c : String) : Except String Unit :=
  if fails c then Except.error "send failed" else Except.ok ()

/-- The per-connection loop of `ConnectionManager.broadcast`: each send is
tried; a raising send puts the connection into the `disconnected` set instead
of propagating.  Returns (successfully sent, disconnected). -/
def broadcastSends (conns : List String) (fails : String → Bool) :
    List String × List String :=
  match conns with
  | [] => ([], [])
  | c :: rest =>
    match send_json fails c with
    | Except.ok _ =>
      ((broadcastSends rest fails).1.cons c, (broadcastSends rest fails).2)
    | Except.error _ =>
      ((broadcastSends rest fails).1, (broadcastSends rest fails).2.cons c)

/-- `ConnectionManager.broadcast` for one route: run the send loop over the
current membership, then remove each disconnected connection in a post-pass.
The result is `Except.ok` — no exception escapes the method. -/
def broadcast (conns : List String) (fails : String → Bool) :
    Except String (List String × List String) :=
  Except.ok ((broadcastSends conns fails).1,
    conns.filter (fun c => !((broadcastSends conns fails).2.contains c)))

lemma broadcastSends_fst (conns : List String) (fails : String → Bool) :
    (broadcastSends conns fails).1 = conns.filter (fun c => !(fails c)) := by
  induction conns with
  | nil => rfl
  | cons c rest ih =>
    by_cases hf : fails c
    · simp [broadcastSends, send_json, hf, ih, List.filter_cons]
    · simp [broadcastSends, send_json, hf, ih, List.filter_cons]

lemma broadcastSends_snd (conns : List String) (fails : String → Bool) :
    (broadcastSends conns fails).2 = conns.filter fails := by
  induction conns with
  | nil => rfl
  | cons c rest ih =>
    by_cases hf : fails c
    · simp [broadcastSends, send_json, hf, ih, List.filter_cons]
    · simp [broadcastSends, send_json, hf, ih, List.filter_cons]

lemma contains_filter_fails (conns : List String) (fails : String → Bool)
    (c : String) (hc : c ∈ conns) :
    (conns.filter fails).contains c = fails c := by
  by_cases hf : fails c
  · simp only [hf]
    exact List.elem_iff.mpr (List.mem_filter.mpr ⟨hc, hf⟩)
  · simp only [Bool.not_eq_true] at hf
    rw [hf]
    have hnm : c ∉ conns.filter fails := fun hm => by
      have := (List.mem_filter.mp hm).2
      rw [hf] at this
      exact Bool.false_ne_true this
    exact Bool.eq_false_iff.mpr fun habs => hnm (List.elem_iff.mp habs)

lemma broadcast_remaining (conns : List String) (fails : String → Bool) :
    conns.filter (fun c => !((broadcastSends conns fails).2.contains c)) =
      conns.filter (fun c => !(fails c)) := by
  rw [broadcastSends_snd]
  apply List.filter_congr
  intro c hc
  rw [contains_filter_fails conns fails c hc]

/-- C4: broadcasting to a route where exactly the connections in F (those
with `fails c = true`) fail to send still sends to every other connection,
raises no exception (`Except.ok`), and afterwards the route's membership is
exactly the original set minus F; membership is only rewritten in the
post-pass, never during the send loop. -/
theorem c4_broadcast_failure_isolation (conns : List String)
    (fails : String → Bool) :
    broadcast conns fails =
      Except.ok (conns.filter (fun c => !(fails c)),
        conns.filter (fun c => !(fails c))) ∧
    ∀ c ∈ conns, fails c = false → c ∈ (broadcastSends conns fails).1 := by
  constructor
  · unfold broadcast
    rw [broadcastSends_fst, broadcast_remaining]
  · intro c hc hf
    rw [broadcastSends_fst]
    exact List.mem_filter.mpr ⟨hc, by simp [hf]⟩

/-- Atomic events of one `broadcast` call, for reasoning about the extent of
`self.lock`: acquiring the lock, awaiting one `send_json`, releasing. -/
inductive BEv where
  | acquire
  | send (c : String)
  | release
deriving DecidableEq, Repr

/-- Event trace of `ConnectionManager.broadcast`: `async with self.lock`
wraps the whole body, so the acquire precedes every per-connection send and
the release follows the cleanup pass. -/
def broadcastTrace (conns : List String) : List BEv :=
  BEv.acquire :: (conns.map BEv.send ++ [BEv.release])

/-- Number of lock acquisitions in a trace segment. -/
def countAcq (l : List BEv) : Nat := (l.filter (· == BEv.acquire)).length

/-- Number of lock releases in a trace segment. -/
def countRel (l : List BEv) : Nat := (l.filter (· == BEv.release)).length

lemma countRel_send_decomp (conns : List String) (pre2 post : List BEv)
    (c : String)
    (h : conns.map BEv.send ++ [BEv.release] = pre2 ++ BEv.send c :: post) :
    countRel pre2 = 0 := by
  induction conns generalizing pre2 with
  | nil =>
    cases pre2 with
    | nil => rfl
    | cons a pre3 =>
      simp only [List.map_nil, List.nil_append, List.cons_append] at h
      injection h with h1 h2
      exact absurd h2.symm (by simp)
  | cons x rest ih =>
    cases pre2 with
    | nil => rfl
    | cons a pre3 =>
      simp only [List.map_cons, List.cons_append] at h
      injection h with h1 h2
      subst h1
      have h0 : countRel (BEv.send x :: pre3) = countRel pre3 := by
        simp [countRel, List.filter_cons]
      rw [h0]
      exact ih pre3 h2

/-- Counterexample to C9 as stated: in the trace of `broadcast ["a"]` the
send event occurs strictly between the acquire and the release — the lock is
held across the awaited send, contradicting the claim that it never is. -/
theorem c9_counterexample :
    ¬ (∀ (conns : List String) (pre post : List BEv) (c : String),
        broadcastTrace conns = pre ++ BEv.send c :: post →
        countAcq pre ≤ countRel pre) := by
  intro h
  have hx := h ["a"] [BEv.acquire] [BEv.release] "a" rfl
  exact absurd hx (by decide)

/-- C9 amended: the lock of the Broadcast Manager IS held across every
awaited per-connection send — at every send event of a broadcast trace the
number of prior acquisitions strictly exceeds the number of prior releases,
so connect, disconnect and other broadcasts are excluded for the whole
pass. -/
theorem c9_amended_lock_held_across_sends (conns : List String)
    (pre post : List BEv) (c : String)
    (h : broadcastTrace conns = pre ++ BEv.send c :: post) :
    countRel pre < countAcq pre := by
  unfold broadcastTrace at h
  cases pre with
  | nil =>
    simp only [List.nil_append] at h
    injection h with h1 h2
    exact BEv.noConfusion h1
  | cons a pre2 =>
    simp only [List.cons_append] at h
    injection h with h1 h2
    subst h1
    have hrel : countRel pre2 = 0 := countRel_send_decomp conns pre2 post c h2
    have hacq : countAcq (BEv.acquire :: pre2) = countAcq pre2 + 1 := by
      simp [countAcq, List.filter_cons]
    have hrl : countRel (BEv.acquire :: pre2) = countRel pre2 := by
      simp [countRel, List.filter_cons]
    omega

/-- Witness for the amended C9: at the single send of `broadcast ["a"]` one
acquire and no release precede. -/
theorem c9_amended_lock_held_across_sends_witness :
    countRel [BEv.acquire] < countAcq [BEv.acquire] :=
  c9_amended_lock_held_across_sends ["a"] [BEv.acquire] [BEv.release] "a" rfl

/-- A row of the `stop_predictions` table (`app/models/predictions.py`).
Columns that the embedded code paths never read (uuid id, scheduled times,
confidence_level, headsign, direction_id, created_at,
predicted_departure_time) are omitted; `route_id`/`trip_id` are carried as
the processor produces them (possibly missing). -/
structure PredRow where
  stop_id : String
  route_id : Option String
  trip_id : Option String
  vehicle_id : Option String
  stop_sequence : Option Int
  arrival_delay_seconds : Int
  departure_delay_seconds : Int
  predicted_arrival_time : Option Int
  prediction_source : String
  is_real_time : Bool
  expires_at : Option Int
deriving Repr, DecidableEq

/-- The active-row condition of the prediction queries:
`expires_at IS NULL OR expires_at > now`. -/
def isActive (now : Int) (p : PredRow) : Bool :=
  match p.expires_at with
  | none => true
  | some e => now < e

/-- Ascending order on `predicted_arrival_time` with NULLs last
(`ORDER BY predicted_arrival_time` under PostgreSQL defaults). -/
def arrivalLEb (p q : PredRow) : Bool :=
  match p.predicted_arrival_time, q.predicted_arrival_time with
  | some a, some b => a ≤ b
  | some _, none => true
  | none, some _ => false
  | none, none => true

/-- Order of `get_predictions_for_route`: `ORDER BY stop_id,
predicted_arrival_time`. -/
def routeOrdb (p q : PredRow) : Bool :=
  if p.stop_id = q.stop_id then arrivalLEb p q else decide (p.stop_id < q.stop_id)

/-- `get_predictions_for_stop` from `app/crud/predictions_crud.py`: active
rows of the stop, optionally narrowed by route, ordered by predicted
arrival, truncated to the limit. -/
def get_predictions_for_stop (store : List PredRow) (stop_id : String)
    (route_id : Option String) (now : Int) (limit : Nat) : List PredRow :=
  (List.insertionSort (fun p q => arrivalLEb p q = true)
    (match route_id with
     | none => store.filter (fun p => p.stop_id == stop_id && isActive now p)
     | some rid =>
       (store.filter (fun p => p.stop_id == stop_id && isActive now p)).filter
         (fun p => p.route_id == some rid))).take limit

/-- `get_predictions_for_route`: active rows of the route, ordered by stop
then predicted arrival, truncated to the limit. -/
def get_predictions_for_route (store : List PredRow) (route_id : String)
    (now : Int) (limit : Nat) : List PredRow :=
  ((store.filter (fun p => p.route_id == some route_id && isActive now p)).insertionSort
    (fun p q => routeOrdb p q = true)).take limit

/-- `get_predictions_for_vehicle`: active rows of the vehicle, ordered by
predicted arrival (no limit in the code). -/
def get_predictions_for_vehicle (store : List PredRow) (vehicle_id : String)
    (now : Int) : List PredRow :=
  (store.filter (fun p => p.vehicle_id == some vehicle_id && isActive now p)).insertionSort
    (fun p q => arrivalLEb p q = true)

/-- The deletion condition of `clean_expired_predictions`:
`expires_at IS NOT NULL AND expires_at < now`. -/
def expiredCond (now : Int) (p : PredRow) : Bool :=
  match p.expires_at with
  | some e => e < now
  | none => false

/-- `clean_expired_predictions`: the rows remaining after the delete. -/
def clean_expired_predictions (store : List PredRow) (now : Int) : List PredRow :=
  store.filter (fun p => !(expiredCond now p))

/-- A decoded `stop_time_update` entry of a GTFS-RT trip update
(`gtfs_trip_updates_processor.py`), every wire field optional. -/
structure StopTimeUpdate where
  stop_id : Option String
  stop_sequence : Option Int
  arrival_delay : Option Int
  departure_delay : Option Int
  arrival_time : Option Int
  departure_time : Option Int
deriving Repr, DecidableEq

/-- Python truthiness of `stop_update['stop_id']`: falsy when missing or
empty. -/
def stop_id_truthy (su : StopTimeUpdate) : Bool :=
  match su.stop_id with
  | some s => s != ""
  | none => false

/-- The storage pass of `fetch_and_process_trip_updates` for one trip
update: for each stop-time update with a truthy stop_id a NEW StopPrediction
row is added (`session.add`, fresh uuid primary key, 10-minute expiry); no
existing row for the same (stop_id, trip_id) is updated or removed. -/
def storeTripUpdatePredictions (store : List PredRow) (now : Int)
    (route_id trip_id : Option String)
    (stop_time_updates : List StopTimeUpdate) : List PredRow :=
  store ++ (stop_time_updates.filter stop_id_truthy).map (fun su =>
    { stop_id := su.stop_id.getD ""
      route_id := route_id
      trip_id := trip_id
      vehicle_id := none
      stop_sequence := su.stop_sequence
      arrival_delay_seconds := su.arrival_delay.getD 0
      departure_delay_seconds := su.departure_delay.getD 0
      predicted_arrival_time := su.arrival_time
      prediction_source := "gtfs_rt"
      is_real_time := true
      expires_at := some (now + 600) })

/-- C5 is violated by the code: two fetch cycles 60 s apart, each carrying
one trip update for stop "S" of trip "T", leave TWO active (unexpired)
prediction rows for the pair ("S","T") — the processor only ever adds rows,
superseding nothing. -/
theorem c5_duplicate_active_predictions :
    ((storeTripUpdatePredictions
        (storeTripUpdatePredictions [] 0 (some "R") (some "T")
          [⟨some "S", some 1, some 60, none, none, none⟩])
        60 (some "R") (some "T")
        [⟨some "S", some 1, some 60, none, none, none⟩]).filter
      (fun p => p.stop_id == "S" && p.trip_id == some "T" && isActive 60 p)).length
      = 2 := by decide

/-- C10: a prediction whose expires_at is NULL is treated as never expiring:
it is included in the by-stop, by-route and by-vehicle query results at every
current time (whenever the limit does not truncate), and
`clean_expired_predictions` never deletes it. -/
theorem c10_null_expiry_always_active (store : List PredRow) (p : PredRow)
    (sid rid vid : String) (now : Int) (limit : Nat)
    (hp : p ∈ store) (hnull : p.expires_at = none)
    (hsid : p.stop_id = sid) (hrid : p.route_id = some rid)
    (hvid : p.vehicle_id = some vid)
    (hlim : store.length ≤ limit) :
    p ∈ get_predictions_for_stop store sid none now limit ∧
    p ∈ get_predictions_for_route store rid now limit ∧
    p ∈ get_predictions_for_vehicle store vid now ∧
    p ∈ clean_expired_predictions store now := by
  have hact : isActive now p = true := by simp [isActive, hnull]
  refine ⟨?_, ?_, ?_, ?_⟩
  · show p ∈ ((store.filter
        (fun q => q.stop_id == sid && isActive now q)).insertionSort
        (fun a b => arrivalLEb a b = true)).take limit
    have hmem : p ∈ store.filter (fun q => q.stop_id == sid && isActive now q) :=
      List.mem_filter.mpr ⟨hp, by simp [hsid, hact]⟩
    have hperm := List.perm_insertionSort (fun a b => arrivalLEb a b = true)
      (store.filter (fun q => q.stop_id == sid && isActive now q))
    rw [List.take_of_length_le
      (by rw [hperm.length_eq]; exact le_trans (List.length_filter_le _ _) hlim)]
    exact hperm.mem_iff.mpr hmem
  · show p ∈ ((store.filter
        (fun q => q.route_id == some rid && isActive now q)).insertionSort
        (fun a b => routeOrdb a b = true)).take limit
    have hmem : p ∈ store.filter
        (fun q => q.route_id == some rid && isActive now q) :=
      List.mem_filter.mpr ⟨hp, by simp [hrid, hact]⟩
    have hperm := List.perm_insertionSort (fun a b => routeOrdb a b = true)
      (store.filter (fun q => q.route_id == some rid && isActive now q))
    rw [List.take_of_length_le
      (by rw [hperm.length_eq]; exact le_trans (List.length_filter_le _ _) hlim)]
    exact hperm.mem_iff.mpr hmem
  · show p ∈ (store.filter
        (fun q => q.vehicle_id == some vid && isActive now q)).insertionSort
        (fun a b => arrivalLEb a b = true)
    have hmem : p ∈ store.filter
        (fun q => q.vehicle_id == some vid && isActive now q) :=
      List.mem_filter.mpr ⟨hp, by simp [hvid, hact]⟩
    exact (List.perm_insertionSort _ _).mem_iff.mpr hmem
  · exact List.mem_filter.mpr ⟨hp, by simp [expiredCond, hnull]⟩

/-- Witness for C10 at a concrete one-row store with NULL expiry. -/
theorem c10_null_expiry_always_active_witness :
    (⟨"S", some "R", some "T", some "V", some 1, 0, 0, none, "gtfs_rt", true,
        none⟩ : PredRow) ∈
      get_predictions_for_stop
        [⟨"S", some "R", some "T", some "V", some 1, 0, 0, none, "gtfs_rt",
          true, none⟩] "S" none 1000 5 ∧
    (⟨"S", some "R", some "T", some "V", some 1, 0, 0, none, "gtfs_rt", true,
        none⟩ : PredRow) ∈
      get_predictions_for_route
        [⟨"S", some "R", some "T", some "V", some 1, 0, 0, none, "gtfs_rt",
          true, none⟩] "R" 1000 5 ∧
    (⟨"S", some "R", some "T", some "V", some 1, 0, 0, none, "gtfs_rt", true,
        none⟩ : PredRow) ∈
      get_predictions_for_vehicle
        [⟨"S", some "R", some "T", some "V", some 1, 0, 0, none, "gtfs_rt",
          true, none⟩] "V" 1000 ∧
    (⟨"S", some "R", some "T", some "V", some 1, 0, 0, none, "gtfs_rt", true,
        none⟩ : PredRow) ∈
      clean_expired_predictions
        [⟨"S", some "R", some "T", some "V", some 1, 0, 0, none, "gtfs_rt",
          true, none⟩] 1000 :=
  c10_null_expiry_always_active _ _ "S" "R" "V" 1000 5
    (List.mem_singleton.mpr rfl) rfl rfl rfl rfl (by decide)

/-- Possible outcomes of one feed-fetch cycle, covering the claim's error
classes: HTTP status error (`raise_for_status`), transport error, protobuf
parse failure, database error during processing. -/
inductive FeedOutcome where
  | success
  | httpStatusError
  | requestError
  | parseError
  | dbError
deriving Repr, DecidableEq

/-- Body of `fetch_and_process_gtfs_rt_data` (fetch, raise_for_status,
ParseFromString, per-entity upserts, commit): an error outcome raises the
corresponding exception, success returns True. -/
def gtfs_rt_cycle_body : FeedOutcome → Except FeedOutcome Bool
  | FeedOutcome.success => Except.ok true
  | e => Except.error e

/-- `fetch_and_process_gtfs_rt_data` with its `except` chain:
`httpx.HTTPStatusError`, `httpx.RequestError` and the final
`except Exception` each return False. -/
def fetch_and_process_gtfs_rt_data (o : FeedOutcome) : Except FeedOutcome Bool :=
  match gtfs_rt_cycle_body o with
  | Except.ok b => Except.ok b
  | Except.error FeedOutcome.httpStatusError => Except.ok false
  | Except.error FeedOutcome.requestError => Except.ok false
  | Except.error _ => Except.ok false

/-- Body of `fetch_and_process_trip_updates`: an empty feed returns False
without raising; a database error during the storage pass is caught by the
inner handler (rollback, return False); other error outcomes raise. -/
def trip_updates_cycle_body (o : FeedOutcome) (entityCount : Nat) :
    Except FeedOutcome Bool :=
  match o with
  | FeedOutcome.success =>
    if entityCount = 0 then Except.ok false else Except.ok true
  | FeedOutcome.dbError => Except.ok false
  | e => Except.error e

/-- `fetch_and_process_trip_updates` with its `except` chain, identical in
structure to the vehicle-position processor's. -/
def fetch_and_process_trip_updates (o : FeedOutcome) (entityCount : Nat) :
    Except FeedOutcome Bool :=
  match trip_updates_cycle_body o entityCount with
  | Except.ok b => Except.ok b
  | Except.error FeedOutcome.httpStatusError => Except.ok false
  | Except.error FeedOutcome.requestError => Except.ok false
  | Except.error _ => Except.ok false

/-- C8: every HTTP status, transport, parse or database error outcome makes
both feed processors return the failure value False to the caller
(`Except.ok false`) — no exception propagates out of either call. -/
theorem c8_feed_errors_never_propagate (o : FeedOutcome) (entityCount : Nat)
    (ho : o ≠ FeedOutcome.success) :
    fetch_and_process_gtfs_rt_data o = Except.ok false ∧
    fetch_and_process_trip_updates o entityCount = Except.ok false := by
  cases o with
  | success => exact absurd rfl ho
  | httpStatusError => exact ⟨rfl, rfl⟩
  | requestError => exact ⟨rfl, rfl⟩
  | parseError => exact ⟨rfl, rfl⟩
  | dbError => exact ⟨rfl, rfl⟩

/-- Witness for C8 at a transport (network) error with a 3-entity feed. -/
theorem c8_feed_errors_never_propagate_witness :
    fetch_and_process_gtfs_rt_data FeedOutcome.requestError = Except.ok false ∧
    fetch_and_process_trip_updates FeedOutcome.requestError 3 = Except.ok false :=
  c8_feed_errors_never_propagate FeedOutcome.requestError 3 (by decide)
